import Mathlib

/-!
Verification development for the `reeloly-agent` command-line front end
(`src/index.ts`).  The program forwards a task to a hosted agent service and
mediates one interactive permission decision — the Approval Gate
`promptForToolApproval` — through a filesystem handshake: for the tool
`AskUserQuestion` it polls for an answer file `/tmp/claude-answers/{toolUseID}.json`,
reads and deletes it, and injects its `answers` field into the tool input.

The embedding below models:
  * JavaScript values (`JVal`, including `undefined`), JS property access
    (`getProp`, which throws a `TypeError` on `null`/`undefined` and otherwise
    yields the own data property or `undefined`; built-in prototype properties
    are not modelled since the gate only reads the plain key `"answers"`),
    and the object-spread merge `\x7b ...input, answers \x7d` (`setField`);
  * the filesystem as a map from paths to file contents, where a file's
    contents are abstracted by their JSON-parse outcome (`FileData`), and
    time as a sequence of poll ticks (`World.fsAt`), one tick per 500 ms
    poll of `pWaitFor`;
  * the gate itself (`promptForToolApproval`) returning the decision, the
    list of filesystem operations it performed, and the resulting
    filesystem;
  * the process-level control flow of `runAgent` and the CLI action
    (`programAction`) as an event trace, with the external agent stream
    (`query`) abstracted as an opaque `DriverOutcome`.
-/

namespace Reeloly

/-- JavaScript runtime values, as far as the gate and CLI manipulate them.
`undefined` is a first-class value (distinct from an absent object field only
in that reading an absent field yields it). JSON.parse never produces
`undefined`. -/
inductive JVal where
  | undefined
  | null
  | bool (b : Bool)
  | num (n : Int)
  | str (s : String)
  | arr (elems : List JVal)
  | obj (fields : List (String × JVal))

/-- Own-property lookup in a JS object, modelled on an association list.
Later entries shadow earlier ones (JS object-literal and `JSON.parse`
duplicate-key semantics: last write wins). -/
def lookupField : List (String × JVal) → String → Option JVal
  | [], _ => none
  | (k', v) :: rest, k =>
    match lookupField rest k with
    | some w => some w
    | none => if k' = k then some v else none

/-- Whether an object has an own property named `k`. -/
def hasField (fields : List (String × JVal)) (k : String) : Bool :=
  fields.any (fun p => p.1 = k)

/-- The object-spread merge `\x7b ...input, k: v \x7d`: every field of `input`
is kept in place, and the field `k` is set to `v` (keeping its original
position when already present, appended at the end otherwise — JS spread
semantics). -/
def setField (fields : List (String × JVal)) (k : String) (v : JVal) :
    List (String × JVal) :=
  if hasField fields k then
    fields.map (fun p => if p.1 = k then (k, v) else p)
  else
    fields ++ [(k, v)]

/-- JS property access `v.key`. Throws (models as `.error`) on `null` and
`undefined`; on an object yields the own property or `undefined`; on every
other value yields `undefined` for a plain data key such as `"answers"`. -/
def getProp : JVal → String → Except String JVal
  | JVal.undefined, _ => Except.error "TypeError: cannot read properties of undefined"
  | JVal.null, _ => Except.error "TypeError: cannot read properties of null"
  | JVal.obj fields, k => Except.ok ((lookupField fields k).getD JVal.undefined)
  | _, _ => Except.ok JVal.undefined

/-- Contents of a file on disk, abstracted by the outcome of `JSON.parse`
on its bytes: either the bytes are not valid JSON (`malformed`, so
`Bun.file(path).json()` throws a `SyntaxError`), or they parse to a value. -/
inductive FileData where
  | malformed (raw : String)
  | parsed (v : JVal)

/-- A filesystem snapshot: which answer files exist, by absolute path. -/
abbrev Fs := String → Option FileData

/-- The filesystem as seen over time by the polling gate: `fsAt t` is the
snapshot at poll tick `t` (tick `t` happens `t * 500` ms after the gate
started waiting). External writers may create files between ticks. -/
structure World where
  fsAt : Nat → Fs

/-- `const ANSWERS_DIR = "/tmp/claude-answers"` (src/index.ts line 11). -/
def ANSWERS_DIR : String := "/tmp/claude-answers"

/-- The answer-file path derived from a tool-use identifier:
`` `${ANSWERS_DIR}/${options.toolUseID}.json` `` (src/index.ts line 64). -/
def answerFile (toolUseID : String) : String :=
  ANSWERS_DIR ++ "/" ++ toolUseID ++ ".json"

/-- The `interval: 500` option passed to `pWaitFor` (src/index.ts line 74). -/
def pollIntervalMs : Nat := 500

/-- The `timeout: 10000` option passed to `pWaitFor` (src/index.ts line 76). -/
def gateTimeoutMs : Nat := 10000

/-- First tick at which `check` holds, scanning `fuel` consecutive ticks
starting at `start`; `none` when `check` never holds in that window. -/
def pollFirst (check : Nat → Bool) : Nat → Nat → Option Nat
  | _, 0 => none
  | start, fuel + 1 =>
    if check start then some start else pollFirst check (start + 1) fuel

/-- The `pWaitFor(condition, \x7b interval, timeout \x7d)` call: polls the
condition once per interval tick until it holds or the timeout elapses.
Returns the tick at which the condition first held, or `none` on timeout
(in the code, a thrown `TimeoutError`). -/
def pWaitFor (check : Nat → Bool) (intervalMs timeoutMs : Nat) : Option Nat :=
  pollFirst check 0 (timeoutMs / intervalMs)

/-- Number of polls the gate performs before timing out. -/
def numChecks : Nat := gateTimeoutMs / pollIntervalMs

/-- The `PermissionResult` returned by a `CanUseTool` callback: either
`\x7b behavior: "allow", updatedInput \x7d` or
`\x7b behavior: "deny", message \x7d`. -/
inductive Decision where
  | allow (updatedInput : List (String × JVal))
  | deny (message : String)

/-- Filesystem operations the gate can perform. -/
inductive FsOp where
  | checkOp (path : String)
  | readOp (path : String)
  | unlinkOp (path : String)

/-- The deny message of the gate's catch branch (src/index.ts line 99). -/
def errMsg : String := "Error waiting for answer file"

/-- Result of one gate call: the decision, the filesystem operations
performed (in order), and the filesystem as the call leaves it. -/
structure GateOut where
  decision : Decision
  ops : List FsOp
  finalFs : Fs

/-- The Approval Gate `promptForToolApproval` (src/index.ts lines 55–102).
Every tool except `AskUserQuestion` is allowed immediately with the input
unchanged and no filesystem access.  For `AskUserQuestion` the gate waits
(via `pWaitFor`, interval 500 ms, timeout 10 s) for
`answerFile toolUseID` to exist, reads and JSON-parses it, reads its
`answers` property, unlinks the file, and allows with
`\x7b ...input, answers \x7d`.  Any thrown error — timeout, the file vanishing
before the read, a JSON `SyntaxError`, a `TypeError` from property access
on `null` — is caught and converted to `deny errMsg`; on those error paths
no unlink happens, so the filesystem is left as the snapshot at the tick
where the error arose. -/
def promptForToolApproval (toolName : String) (input : List (String × JVal))
    (toolUseID : String) (w : World) : GateOut :=
  if toolName ≠ "AskUserQuestion" then
    { decision := Decision.allow input, ops := [], finalFs := w.fsAt 0 }
  else
    match pWaitFor (fun t => ((w.fsAt t) (answerFile toolUseID)).isSome)
        pollIntervalMs gateTimeoutMs with
    | none =>
      { decision := Decision.deny errMsg
        ops := List.replicate numChecks (FsOp.checkOp (answerFile toolUseID))
        finalFs := w.fsAt numChecks }
    | some t =>
      match (w.fsAt t) (answerFile toolUseID) with
      | none =>
        { decision := Decision.deny errMsg
          ops := List.replicate (t + 1) (FsOp.checkOp (answerFile toolUseID))
            ++ [FsOp.readOp (answerFile toolUseID)]
          finalFs := w.fsAt t }
      | some (FileData.malformed _) =>
        { decision := Decision.deny errMsg
          ops := List.replicate (t + 1) (FsOp.checkOp (answerFile toolUseID))
            ++ [FsOp.readOp (answerFile toolUseID)]
          finalFs := w.fsAt t }
      | some (FileData.parsed content) =>
        match getProp content "answers" with
        | Except.error _ =>
          { decision := Decision.deny errMsg
            ops := List.replicate (t + 1) (FsOp.checkOp (answerFile toolUseID))
              ++ [FsOp.readOp (answerFile toolUseID)]
            finalFs := w.fsAt t }
        | Except.ok answers =>
          { decision := Decision.allow (setField input "answers" answers)
            ops := List.replicate (t + 1) (FsOp.checkOp (answerFile toolUseID))
              ++ [FsOp.readOp (answerFile toolUseID),
                  FsOp.unlinkOp (answerFile toolUseID)]
            finalFs := fun p =>
              if p = answerFile toolUseID then none else (w.fsAt t) p }

/-- JS truthiness of an environment variable: unset (`none`) and the empty
string are falsy, every other string is truthy. -/
def truthy : Option String → Bool
  | none => false
  | some s => !(s == "")

/-- The environment variables the program consumes. -/
structure Env where
  anthropicApiKey : Option String
  taskInput : Option String
  taskImages : Option String

/-- Observable process-level events, in program order: the recursive
`mkdir` of the scratch directory, a `console.error` line, a `console.log`
line that is not a stream event, a serialized stream event printed by the
message loop, the dispatch of the task to the agent service (`query(...)`),
and `process.exit(code)`. -/
inductive Event where
  | mkdirOp (path : String) (recursive : Bool)
  | stderrLine (s : String)
  | stdoutLine (s : String)
  | emitEvent (s : String)
  | dispatchOp
  | exitOp (code : Nat)

/-- The opaque agent stream produced by `query(...)`: it either yields a
finite list of serialized messages and completes normally, or yields some
messages and then throws with an error message. -/
inductive DriverOutcome where
  | completes (msgs : List String)
  | fails (msgs : List String) (message : String)

/-- Whether `runAgent`'s promise resolved normally or rejected (feeding the
`.catch` handler installed in the CLI action). `process.exit` inside
`runAgent` terminates the process directly, so that path resolves nothing
and is recorded as `normal` with an `exitOp` already in the trace. -/
inductive RunOutcome where
  | normal
  | thrown (message : String)

/-- Diagnostic printed when `ANTHROPIC_API_KEY` is unset (src/index.ts line 116). -/
def apiKeyDiag : String := "Error: ANTHROPIC_API_KEY environment variable is not set"

/-- Hint printed to stdout on the same path (src/index.ts lines 117–119). -/
def apiKeyHint : String := "Please set your API key: export ANTHROPIC_API_KEY=your_api_key"

/-- Diagnostic printed when `TASK_INPUT` is unset (src/index.ts line 199). -/
def taskDiag : String := "Error: TASK_INPUT environment variable is not set"

/-- Message field of the object logged when `TASK_IMAGES` fails to parse
(src/index.ts lines 209–212). -/
def imagesDiag : String := "Error parsing TASK_IMAGES environment variable"

/-- `runAgent` (src/index.ts lines 104–179): creates the scratch directory
(recursively, idempotently), then checks the credential — exiting 1 with a
diagnostic when it is falsy — then dispatches the task via `query(...)` and
prints each streamed message as one JSON line.  Returns the event trace and
whether the promise resolved or rejected. -/
def runAgent (env : Env) (driver : DriverOutcome) : List Event × RunOutcome :=
  if truthy env.anthropicApiKey = false then
    ([Event.mkdirOp ANSWERS_DIR true,
      Event.stderrLine apiKeyDiag,
      Event.stdoutLine apiKeyHint,
      Event.exitOp 1], RunOutcome.normal)
  else
    match driver with
    | DriverOutcome.completes msgs =>
      (Event.mkdirOp ANSWERS_DIR true :: Event.dispatchOp ::
        msgs.map Event.emitEvent, RunOutcome.normal)
    | DriverOutcome.fails msgs message =>
      (Event.mkdirOp ANSWERS_DIR true :: Event.dispatchOp ::
        msgs.map Event.emitEvent, RunOutcome.thrown message)

/-- The CLI action (src/index.ts lines 195–224): requires `TASK_INPUT`
(exit 1 with a diagnostic when falsy); when `TASK_IMAGES` is truthy,
`JSON.parse`s it — exit 1 on a parse failure, with no validation of the
parsed value — then runs `runAgent`, whose rejection is caught, logged and
turned into exit 1.  `jsonParse` abstracts the JS `JSON.parse`, returning
`none` exactly when its argument is not valid JSON. -/
def programAction (env : Env) (jsonParse : String → Option JVal)
    (driver : DriverOutcome) : List Event :=
  if truthy env.taskInput = false then
    [Event.stderrLine taskDiag, Event.exitOp 1]
  else if truthy env.taskImages && (jsonParse (env.taskImages.getD "")).isNone then
    [Event.stderrLine imagesDiag, Event.exitOp 1]
  else
    match runAgent env driver with
    | (evs, RunOutcome.normal) => evs
    | (evs, RunOutcome.thrown message) =>
      evs ++ [Event.stderrLine ("Error running agent: " ++ message),
              Event.exitOp 1]

/-- The exit code an event carries, if it is a `process.exit`. -/
def exitOf : Event → Option Nat
  | Event.exitOp c => some c
  | _ => none

/-- The process exit status of a finished trace: the first explicit
`process.exit` code, or 0 when the event loop drains normally. -/
def exitCode (trace : List Event) : Nat :=
  (trace.findSome? exitOf).getD 0

/-- Whether an event is a serialized stream event printed by the message
loop. -/
def isEmit : Event → Bool
  | Event.emitEvent _ => true
  | _ => false

/-- Whether an event touches filesystem state.  The dispatch of the task
is counted conservatively: the dispatched agent run may read image files
and the gate polls the scratch directory. -/
def touchesFs : Event → Bool
  | Event.mkdirOp _ _ => true
  | Event.dispatchOp => true
  | _ => false

/-- Whether the opaque stream completed normally. -/
def DriverOutcome.isCompletes : DriverOutcome → Bool
  | DriverOutcome.completes _ => true
  | DriverOutcome.fails _ _ => false

/-- Whether `chars` starts with `pat`. -/
def leadingMatch : List Char → List Char → Bool
  | [], _ => true
  | _ :: _, [] => false
  | a :: as, b :: bs => a == b && leadingMatch as bs

/-- Whether `pat` occurs as a contiguous run inside `chars`. -/
def hasSub (pat : List Char) : List Char → Bool
  | [] => leadingMatch pat []
  | c :: rest => leadingMatch pat (c :: rest) || hasSub pat rest

/-- Whether the string `pat` occurs as a substring of `s`. -/
def containsStr (s pat : String) : Bool :=
  hasSub pat.data s.data

/-- The empty world: no file ever exists. -/
def wEmpty : World := ⟨fun _ _ => none⟩

section PollLemmas

theorem pollFirst_eq_some (check : Nat → Bool) :
    ∀ (fuel start t : Nat), start ≤ t → t < start + fuel →
      (∀ s, start ≤ s → s < t → check s = false) → check t = true →
      pollFirst check start fuel = some t := by
  intro fuel
  induction fuel with
  | zero => intro start t h1 h2 _ _; omega
  | succ n ih =>
    intro start t h1 h2 hbefore hc
    by_cases hs : start = t
    · subst hs
      simp [pollFirst, hc]
    · have hfalse : check start = false :=
        hbefore start (Nat.le_refl start) (Nat.lt_of_le_of_ne h1 hs)
      simp only [pollFirst, hfalse, Bool.false_eq_true, if_false]
      exact ih (start + 1) t (by omega) (by omega)
        (fun s hs1 hs2 => hbefore s (by omega) hs2) hc

theorem pollFirst_eq_none (check : Nat → Bool) :
    ∀ (fuel start : Nat),
      (∀ s, start ≤ s → s < start + fuel → check s = false) →
      pollFirst check start fuel = none := by
  intro fuel
  induction fuel with
  | zero => intro start _; rfl
  | succ n ih =>
    intro start h
    have hfalse : check start = false := h start (Nat.le_refl start) (by omega)
    simp only [pollFirst, hfalse, Bool.false_eq_true, if_false]
    exact ih (start + 1) (fun s hs1 hs2 => h s (by omega) (by omega))

end PollLemmas

section FieldLemmas

theorem lookupField_append (l₁ l₂ : List (String × JVal)) (k : String) :
    lookupField (l₁ ++ l₂) k =
      match lookupField l₂ k with
      | some v => some v
      | none => lookupField l₁ k := by
  induction l₁ with
  | nil =>
    simp only [List.nil_append, lookupField]
    cases lookupField l₂ k <;> rfl
  | cons p l₁ ih =>
    obtain ⟨k', v⟩ := p
    show (match lookupField (l₁ ++ l₂) k with
          | some w => some w
          | none => if k' = k then some v else none) = _
    rw [ih]
    cases lookupField l₂ k with
    | some w => rfl
    | none =>
      show _ = (match lookupField l₁ k with
                | some w => some w
                | none => if k' = k then some v else none)
      cases lookupField l₁ k <;> rfl

theorem lookupField_eq_none_of_not_has (fields : List (String × JVal)) (k : String)
    (h : hasField fields k = false) : lookupField fields k = none := by
  induction fields with
  | nil => rfl
  | cons p rest ih =>
    obtain ⟨k', v⟩ := p
    simp only [hasField, List.any_cons, Bool.or_eq_false_iff, decide_eq_false_iff_not] at h
    simp only [lookupField, ih (by simp [hasField, h.2]), if_neg h.1]

theorem map_set_eq_self_of_not_has (fields : List (String × JVal)) (k : String) (v : JVal)
    (h : hasField fields k = false) :
    fields.map (fun p => if p.1 = k then (k, v) else p) = fields := by
  induction fields with
  | nil => rfl
  | cons p rest ih =>
    obtain ⟨k', w⟩ := p
    simp only [hasField, List.any_cons, Bool.or_eq_false_iff, decide_eq_false_iff_not] at h
    simp only [List.map_cons, if_neg h.1, ih (by simp [hasField, h.2])]

theorem lookupField_map_set_of_has (fields : List (String × JVal)) (k : String) (v : JVal)
    (h : hasField fields k = true) :
    lookupField (fields.map (fun p => if p.1 = k then (k, v) else p)) k = some v := by
  induction fields with
  | nil => simp [hasField] at h
  | cons p rest ih =>
    obtain ⟨a, b⟩ := p
    rw [List.map_cons]
    by_cases hrest : hasField rest k = true
    · have hmain := ih hrest
      by_cases ha : a = k
      · have hhead : (if ((a, b) : String × JVal).1 = k then ((k, v) : String × JVal) else (a, b))
            = (k, v) := by subst ha; exact if_pos rfl
        rw [hhead]
        show (match lookupField (List.map (fun p => if p.1 = k then (k, v) else p) rest) k with
              | some u => some u
              | none => if k = k then some v else none) = some v
        rw [hmain]
      · have hhead : (if ((a, b) : String × JVal).1 = k then ((k, v) : String × JVal) else (a, b))
            = (a, b) := if_neg ha
        rw [hhead]
        show (match lookupField (List.map (fun p => if p.1 = k then (k, v) else p) rest) k with
              | some u => some u
              | none => if a = k then some b else none) = some v
        rw [hmain]
    · have ha : a = k := by
        simp only [hasField, List.any_cons, Bool.or_eq_true, decide_eq_true_eq] at h
        rcases h with h | h
        · exact h
        · exact absurd h (by simpa [hasField] using hrest)
      have hfalse : hasField rest k = false := by
        cases hb : hasField rest k
        · rfl
        · exact absurd hb hrest
      have hnone : lookupField (List.map (fun p => if p.1 = k then (k, v) else p) rest) k
          = none := by
        rw [map_set_eq_self_of_not_has rest k v hfalse]
        exact lookupField_eq_none_of_not_has rest k hfalse
      have hhead : (if ((a, b) : String × JVal).1 = k then ((k, v) : String × JVal) else (a, b))
          = (k, v) := by subst ha; exact if_pos rfl
      rw [hhead]
      show (match lookupField (List.map (fun p => if p.1 = k then (k, v) else p) rest) k with
            | some u => some u
            | none => if k = k then some v else none) = some v
      rw [hnone]
      show (if k = k then some v else none) = some v
      exact if_pos rfl

theorem lookupField_setField_self (fields : List (String × JVal)) (k : String) (v : JVal) :
    lookupField (setField fields k v) k = some v := by
  unfold setField
  by_cases h : hasField fields k = true
  · rw [if_pos h]
    exact lookupField_map_set_of_has fields k v h
  · rw [if_neg h, lookupField_append]
    simp [lookupField]

theorem lookupField_map_set_other (fields : List (String × JVal)) (k : String) (v : JVal)
    (k' : String) (h : k' ≠ k) :
    lookupField (fields.map (fun p => if p.1 = k then (k, v) else p)) k' =
      lookupField fields k' := by
  induction fields with
  | nil => rfl
  | cons p rest ih =>
    obtain ⟨a, b⟩ := p
    rw [List.map_cons]
    by_cases ha : a = k
    · have hhead : (if ((a, b) : String × JVal).1 = k then ((k, v) : String × JVal) else (a, b))
          = (k, v) := by subst ha; exact if_pos rfl
      rw [hhead]
      show (match lookupField (List.map (fun p => if p.1 = k then (k, v) else p) rest) k' with
            | some u => some u
            | none => if k = k' then some v else none) =
          (match lookupField rest k' with
            | some u => some u
            | none => if a = k' then some b else none)
      rw [ih]
      cases lookupField rest k' with
      | some u => rfl
      | none =>
        show (if k = k' then some v else none) = (if a = k' then some b else none)
        rw [if_neg (fun hc : k = k' => h hc.symm),
          if_neg (fun hc : a = k' => h (hc.symm.trans ha))]
    · have hhead : (if ((a, b) : String × JVal).1 = k then ((k, v) : String × JVal) else (a, b))
          = (a, b) := if_neg ha
      rw [hhead]
      show (match lookupField (List.map (fun p => if p.1 = k then (k, v) else p) rest) k' with
            | some u => some u
            | none => if a = k' then some b else none) =
          (match lookupField rest k' with
            | some u => some u
            | none => if a = k' then some b else none)
      rw [ih]

theorem lookupField_setField_other (fields : List (String × JVal)) (k : String) (v : JVal)
    (k' : String) (h : k' ≠ k) :
    lookupField (setField fields k v) k' = lookupField fields k' := by
  unfold setField
  by_cases hhas : hasField fields k
  · rw [if_pos hhas]
    exact lookupField_map_set_other fields k v k' h
  · rw [if_neg hhas, lookupField_append]
    simp only [lookupField, if_neg (fun hkk' : k = k' => h hkk'.symm)]

end FieldLemmas

section GateLemmas

theorem numChecks_eq : numChecks = 20 := rfl

/-- When the answer file first exists at tick `t` within the window, the
gate's `pWaitFor` resolves at tick `t`. -/
theorem gate_pWaitFor_eq_some (toolUseID : String) (w : World) (t : Nat)
    (ht : t < numChecks)
    (hbefore : ∀ s, s < t → (w.fsAt s) (answerFile toolUseID) = none)
    (hsome : ((w.fsAt t) (answerFile toolUseID)).isSome = true) :
    pWaitFor (fun s => ((w.fsAt s) (answerFile toolUseID)).isSome)
      pollIntervalMs gateTimeoutMs = some t := by
  have hfuel : gateTimeoutMs / pollIntervalMs = numChecks := rfl
  unfold pWaitFor
  rw [hfuel]
  exact pollFirst_eq_some _ numChecks 0 t (Nat.zero_le t) (by omega)
    (fun s _ hs => by rw [hbefore s hs]; rfl) hsome

/-- When the answer file never exists during the window, the gate's
`pWaitFor` times out. -/
theorem gate_pWaitFor_eq_none (toolUseID : String) (w : World)
    (h : ∀ s, s ≤ numChecks → (w.fsAt s) (answerFile toolUseID) = none) :
    pWaitFor (fun s => ((w.fsAt s) (answerFile toolUseID)).isSome)
      pollIntervalMs gateTimeoutMs = none := by
  have hfuel : gateTimeoutMs / pollIntervalMs = numChecks := rfl
  unfold pWaitFor
  rw [hfuel]
  exact pollFirst_eq_none _ numChecks 0
    (fun s _ hs => by rw [h s (by omega)]; rfl)

end GateLemmas

/-- C4: for every tool name other than `AskUserQuestion` and every
well-formed input, the gate returns `allow` with the input unchanged, with
no filesystem operations and the filesystem untouched. -/
theorem other_tools_allowed_unchanged (toolName : String)
    (input : List (String × JVal)) (toolUseID : String) (w : World)
    (h : toolName ≠ "AskUserQuestion") :
    promptForToolApproval toolName input toolUseID w =
      { decision := Decision.allow input, ops := [], finalFs := w.fsAt 0 } := by
  unfold promptForToolApproval
  rw [if_pos h]

/-- Witness for C4 at the concrete tool name `"Bash"`. -/
theorem other_tools_allowed_unchanged_check :
    promptForToolApproval "Bash" [] "toolu_01" wEmpty =
      { decision := Decision.allow [], ops := [], finalFs := wEmpty.fsAt 0 } :=
  other_tools_allowed_unchanged "Bash" [] "toolu_01" wEmpty (by decide)

/-- C5: the gate is total — for every tool name, input, identifier and
world it returns exactly one decision, and that decision is either an
`allow` or the fixed `deny errMsg` produced by the catch-all error
handler; no exception escapes. -/
theorem gate_total_allow_or_deny (toolName : String)
    (input : List (String × JVal)) (toolUseID : String) (w : World) :
    (∃ u, (promptForToolApproval toolName input toolUseID w).decision
        = Decision.allow u) ∨
      (promptForToolApproval toolName input toolUseID w).decision
        = Decision.deny errMsg := by
  unfold promptForToolApproval
  split
  · exact Or.inl ⟨input, rfl⟩
  · split
    · exact Or.inr rfl
    · split
      · exact Or.inr rfl
      · exact Or.inr rfl
      · split
        · exact Or.inr rfl
        · exact Or.inl ⟨_, rfl⟩

/-- A world in which exactly one file exists, at `path`, from tick 0 on,
with contents `d`. -/
def wSingle (path : String) (d : FileData) : World :=
  ⟨fun _ p => if p = path then some d else none⟩

/-- Whether a JS value is a string-to-string mapping, the declared type of
the answer file's `answers` field. -/
def isStringRecord : JVal → Bool
  | JVal.obj fields => fields.all (fun p =>
      match p.2 with
      | JVal.str _ => true
      | _ => false)
  | _ => false

/-- Evaluation of the gate when the answer file first appears at tick `t`
within the window and parses to `content`, whose `answers` property reads
back as `a`: the gate polls `t + 1` times, reads and unlinks the file, and
allows with the merged input. -/
theorem gate_found_parsed (input : List (String × JVal)) (toolUseID : String)
    (w : World) (t : Nat) (content : JVal) (a : JVal)
    (ht : t < numChecks)
    (hbefore : ∀ s, s < t → (w.fsAt s) (answerFile toolUseID) = none)
    (hfile : (w.fsAt t) (answerFile toolUseID) = some (FileData.parsed content))
    (hget : getProp content "answers" = Except.ok a) :
    promptForToolApproval "AskUserQuestion" input toolUseID w =
      { decision := Decision.allow (setField input "answers" a)
        ops := List.replicate (t + 1) (FsOp.checkOp (answerFile toolUseID))
          ++ [FsOp.readOp (answerFile toolUseID), FsOp.unlinkOp (answerFile toolUseID)]
        finalFs := fun p =>
          if p = answerFile toolUseID then none else (w.fsAt t) p } := by
  have hpoll := gate_pWaitFor_eq_some toolUseID w t ht hbefore (by rw [hfile]; rfl)
  unfold promptForToolApproval
  rw [if_neg (fun h : ("AskUserQuestion" : String) ≠ "AskUserQuestion" => h rfl)]
  split
  · next heq => exact Option.noConfusion (hpoll.symm.trans heq)
  · next t' heq =>
    have ht' : t = t' := Option.some.inj (hpoll.symm.trans heq)
    subst ht'
    split
    · next heq2 => exact Option.noConfusion (hfile.symm.trans heq2)
    · next raw' heq2 =>
      exact FileData.noConfusion (Option.some.inj (hfile.symm.trans heq2))
    · next content' heq2 =>
      have hc : content = content' :=
        FileData.parsed.inj (Option.some.inj (hfile.symm.trans heq2))
      subst hc
      split
      · next e heq3 => exact Except.noConfusion (hget.symm.trans heq3)
      · next answers heq3 =>
        have ha : a = answers := Except.ok.inj (hget.symm.trans heq3)
        subst ha
        rfl

/-- C1: if the answer file at `answerFile toolUseID` first appears at a
tick inside the timeout window and parses to an object whose `answers`
field is a string-to-string mapping, the gate returns `allow` whose
updated input is the original input merged with `answers` set to the
file's mapping, and the answer file no longer exists afterwards. -/
theorem answer_file_allow_and_cleanup (input : List (String × JVal))
    (toolUseID : String) (w : World) (t : Nat)
    (fields : List (String × JVal)) (a : JVal)
    (ht : t < numChecks)
    (hbefore : ∀ s, s < t → (w.fsAt s) (answerFile toolUseID) = none)
    (hfile : (w.fsAt t) (answerFile toolUseID)
      = some (FileData.parsed (JVal.obj fields)))
    (hans : lookupField fields "answers" = some a)
    (hmap : isStringRecord a = true) :
    (promptForToolApproval "AskUserQuestion" input toolUseID w).decision
        = Decision.allow (setField input "answers" a)
      ∧ (promptForToolApproval "AskUserQuestion" input toolUseID w).finalFs
          (answerFile toolUseID) = none := by
  have h := gate_found_parsed input toolUseID w t (JVal.obj fields) a ht hbefore
    hfile (by simp [getProp, hans])
  rw [h]
  exact ⟨rfl, if_pos rfl⟩

/-- Witness for C1: the file `/tmp/claude-answers/toolu_w1.json` holds
`\x7b"answers":\x7b"q1":"yes"\x7d\x7d` from tick 0, the original input has one
unrelated field. -/
theorem answer_file_allow_and_cleanup_check :
    (promptForToolApproval "AskUserQuestion" [("questions", JVal.arr [])]
        "toolu_w1"
        (wSingle (answerFile "toolu_w1")
          (FileData.parsed
            (JVal.obj [("answers", JVal.obj [("q1", JVal.str "yes")])])))).decision
      = Decision.allow [("questions", JVal.arr []),
          ("answers", JVal.obj [("q1", JVal.str "yes")])]
    ∧ (promptForToolApproval "AskUserQuestion" [("questions", JVal.arr [])]
        "toolu_w1"
        (wSingle (answerFile "toolu_w1")
          (FileData.parsed
            (JVal.obj [("answers", JVal.obj [("q1", JVal.str "yes")])])))).finalFs
        (answerFile "toolu_w1") = none :=
  answer_file_allow_and_cleanup [("questions", JVal.arr [])] "toolu_w1"
    (wSingle (answerFile "toolu_w1")
      (FileData.parsed (JVal.obj [("answers", JVal.obj [("q1", JVal.str "yes")])])))
    0 [("answers", JVal.obj [("q1", JVal.str "yes")])]
    (JVal.obj [("q1", JVal.str "yes")])
    (by rw [numChecks_eq]; omega)
    (fun s hs => absurd hs (Nat.not_lt_zero s))
    rfl
    rfl
    rfl

/-- C3: if no answer file for the identifier exists at any tick of the
window, the gate — whose poll interval is the fixed 500 ms and whose
timeout is the fixed 10 s — returns `deny` with the fixed non-empty
diagnostic, and no answer file for that identifier exists afterwards. -/
theorem timeout_denies_with_diagnostic (input : List (String × JVal))
    (toolUseID : String) (w : World)
    (h : ∀ s, s ≤ numChecks → (w.fsAt s) (answerFile toolUseID) = none) :
    pollIntervalMs = 500 ∧ gateTimeoutMs = 10000 ∧
      (promptForToolApproval "AskUserQuestion" input toolUseID w).decision
        = Decision.deny errMsg
      ∧ errMsg ≠ ""
      ∧ (promptForToolApproval "AskUserQuestion" input toolUseID w).finalFs
          (answerFile toolUseID) = none := by
  have hpoll := gate_pWaitFor_eq_none toolUseID w h
  refine ⟨rfl, rfl, ?_, by decide, ?_⟩ <;>
  · unfold promptForToolApproval
    rw [if_neg (fun hne : ("AskUserQuestion" : String) ≠ "AskUserQuestion" => hne rfl)]
    split
    · next _ => first
        | rfl
        | exact h numChecks (Nat.le_refl numChecks)
    · next t' heq => rw [hpoll] at heq; cases heq

/-- Witness for C3 in the empty world. -/
theorem timeout_denies_with_diagnostic_check :
    pollIntervalMs = 500 ∧ gateTimeoutMs = 10000 ∧
      (promptForToolApproval "AskUserQuestion" [] "toolu_w3" wEmpty).decision
        = Decision.deny errMsg
      ∧ errMsg ≠ ""
      ∧ (promptForToolApproval "AskUserQuestion" [] "toolu_w3" wEmpty).finalFs
          (answerFile "toolu_w3") = none :=
  timeout_denies_with_diagnostic [] "toolu_w3" wEmpty (fun _ _ => rfl)

/-- Counterexample to C2: the answer file for `"toolu_c2"` exists and
parses as the valid JSON object `\x7b\x7d` — structurally invalid per the claim,
since the `answers` field is missing — yet the gate returns `allow` (the
unchecked cast `as \x7b answers: ... \x7d` never validates the shape, and
property access on an object merely yields `undefined`), not `deny`. -/
theorem missing_answers_field_still_allows :
    (promptForToolApproval "AskUserQuestion" [] "toolu_c2"
        (wSingle (answerFile "toolu_c2") (FileData.parsed (JVal.obj [])))).decision
      = Decision.allow [("answers", JVal.undefined)]
    ∧ ∀ m, (promptForToolApproval "AskUserQuestion" [] "toolu_c2"
        (wSingle (answerFile "toolu_c2") (FileData.parsed (JVal.obj [])))).decision
      ≠ Decision.deny m := by
  have h1 : (promptForToolApproval "AskUserQuestion" [] "toolu_c2"
      (wSingle (answerFile "toolu_c2") (FileData.parsed (JVal.obj [])))).decision
      = Decision.allow [("answers", JVal.undefined)] := rfl
  exact ⟨h1, fun m hm => Decision.noConfusion (h1.symm.trans hm)⟩

/-- C2 as amended: when the answer file is found at tick `t`, only a file
whose bytes are not valid JSON — or one whose top-level JSON value is
`null`, where the property access itself throws — is treated as a read
failure and yields `deny`; a file that parses to any non-null value yields
`allow`, with the `answers` field of the updated input set to whatever
`content.answers` evaluates to (`undefined` when the field is missing, the
raw value unchanged when it has the wrong type). -/
theorem read_failure_semantics_amended (input : List (String × JVal))
    (toolUseID : String) (w : World) (t : Nat)
    (ht : t < numChecks)
    (hbefore : ∀ s, s < t → (w.fsAt s) (answerFile toolUseID) = none)
    (hsome : ((w.fsAt t) (answerFile toolUseID)).isSome = true) :
    (∀ raw, (w.fsAt t) (answerFile toolUseID) = some (FileData.malformed raw) →
      (promptForToolApproval "AskUserQuestion" input toolUseID w).decision
        = Decision.deny errMsg)
    ∧ ((w.fsAt t) (answerFile toolUseID) = some (FileData.parsed JVal.null) →
      (promptForToolApproval "AskUserQuestion" input toolUseID w).decision
        = Decision.deny errMsg)
    ∧ (∀ content a,
        (w.fsAt t) (answerFile toolUseID) = some (FileData.parsed content) →
        getProp content "answers" = Except.ok a →
        (promptForToolApproval "AskUserQuestion" input toolUseID w).decision
          = Decision.allow (setField input "answers" a)) := by
  have hpoll := gate_pWaitFor_eq_some toolUseID w t ht hbefore hsome
  constructor
  · intro raw hfile
    unfold promptForToolApproval
    rw [if_neg (fun h : ("AskUserQuestion" : String) ≠ "AskUserQuestion" => h rfl)]
    split
    · next heq => exact Option.noConfusion (hpoll.symm.trans heq)
    · next t' heq =>
      have ht' : t = t' := Option.some.inj (hpoll.symm.trans heq)
      subst ht'
      split
      · next heq2 => exact Option.noConfusion (hfile.symm.trans heq2)
      · next raw' heq2 => rfl
      · next content heq2 =>
        exact FileData.noConfusion (Option.some.inj (hfile.symm.trans heq2))
  constructor
  · intro hfile
    unfold promptForToolApproval
    rw [if_neg (fun h : ("AskUserQuestion" : String) ≠ "AskUserQuestion" => h rfl)]
    split
    · next heq => exact Option.noConfusion (hpoll.symm.trans heq)
    · next t' heq =>
      have ht' : t = t' := Option.some.inj (hpoll.symm.trans heq)
      subst ht'
      split
      · next heq2 => exact Option.noConfusion (hfile.symm.trans heq2)
      · next raw' heq2 => rfl
      · next content heq2 =>
        have hc : JVal.null = content :=
          FileData.parsed.inj (Option.some.inj (hfile.symm.trans heq2))
        subst hc
        split
        · next e heq3 => rfl
        · next answers heq3 => exact Except.noConfusion heq3
  · intro content a hfile hget
    unfold promptForToolApproval
    rw [if_neg (fun h : ("AskUserQuestion" : String) ≠ "AskUserQuestion" => h rfl)]
    split
    · next heq => exact Option.noConfusion (hpoll.symm.trans heq)
    · next t' heq =>
      have ht' : t = t' := Option.some.inj (hpoll.symm.trans heq)
      subst ht'
      split
      · next heq2 => exact Option.noConfusion (hfile.symm.trans heq2)
      · next raw' heq2 =>
        exact FileData.noConfusion (Option.some.inj (hfile.symm.trans heq2))
      · next content' heq2 =>
        have hc : content = content' :=
          FileData.parsed.inj (Option.some.inj (hfile.symm.trans heq2))
        subst hc
        split
        · next e heq3 => exact Except.noConfusion (hget.symm.trans heq3)
        · next answers heq3 =>
          have ha : a = answers := Except.ok.inj (hget.symm.trans heq3)
          subst ha
          rfl

/-- Witness for the amended C2: a malformed file yields `deny`, and a
well-formed file whose `answers` field has the wrong type (a number)
yields `allow` with the number injected as-is. -/
theorem read_failure_semantics_amended_check :
    ((promptForToolApproval "AskUserQuestion" [] "toolu_c2m"
        (wSingle (answerFile "toolu_c2m") (FileData.malformed "not json"))).decision
      = Decision.deny errMsg)
    ∧ ((promptForToolApproval "AskUserQuestion" [] "toolu_c2t"
        (wSingle (answerFile "toolu_c2t")
          (FileData.parsed (JVal.obj [("answers", JVal.num 7)])))).decision
      = Decision.allow [("answers", JVal.num 7)]) :=
  ⟨(read_failure_semantics_amended [] "toolu_c2m"
      (wSingle (answerFile "toolu_c2m") (FileData.malformed "not json")) 0
      (by rw [numChecks_eq]; omega)
      (fun s hs => absurd hs (Nat.not_lt_zero s))
      rfl).1 "not json" rfl,
   (read_failure_semantics_amended [] "toolu_c2t"
      (wSingle (answerFile "toolu_c2t")
        (FileData.parsed (JVal.obj [("answers", JVal.num 7)]))) 0
      (by rw [numChecks_eq]; omega)
      (fun s hs => absurd hs (Nat.not_lt_zero s))
      rfl).2.2 (JVal.obj [("answers", JVal.num 7)]) (JVal.num 7) rfl rfl⟩

/-- C6: distinct pending tool-use identifiers do not interfere — the
answer-file paths derived from distinct identifiers are distinct, and the
gate's decision for a call keyed by identifier `b` depends only on the
file at `answerFile b`: two worlds agreeing at that path at every tick
yield the same decision, whatever files exist elsewhere. -/
theorem distinct_ids_no_interference :
    (∀ a b : String, a ≠ b → answerFile a ≠ answerFile b)
    ∧ (∀ (toolName : String) (input : List (String × JVal)) (b : String)
        (w w' : World),
        (∀ t, (w.fsAt t) (answerFile b) = (w'.fsAt t) (answerFile b)) →
        (promptForToolApproval toolName input b w).decision
          = (promptForToolApproval toolName input b w').decision) := by
  constructor
  · intro a b hab heq
    apply hab
    have h1 := congrArg String.data heq
    simp only [answerFile, String.data_append, List.append_assoc] at h1
    exact String.ext
      (List.append_cancel_right (List.append_cancel_left (List.append_cancel_left h1)))
  · intro toolName input b w w' hagree
    by_cases htool : toolName = "AskUserQuestion"
    · subst htool
      unfold promptForToolApproval
      rw [if_neg (fun h : ("AskUserQuestion" : String) ≠ "AskUserQuestion" => h rfl)]
      have hcheck : (fun s => ((w.fsAt s) (answerFile b)).isSome)
          = fun s => ((w'.fsAt s) (answerFile b)).isSome :=
        funext fun s => by rw [hagree s]
      rw [hcheck]
      split
      · rfl
      · next t heq =>
        rw [hagree t]
        split
        · rfl
        · rfl
        · split
          · rfl
          · rfl
    · unfold promptForToolApproval
      rw [if_pos htool, if_pos htool]

/-- Witness for C6: the identifiers `"toolu_a"` and `"toolu_b"` map to
distinct paths, and an answer file present for `"toolu_a"` leaves the
decision for a call keyed by `"toolu_b"` identical to the decision in the
empty world. -/
theorem distinct_ids_no_interference_check :
    answerFile "toolu_a" ≠ answerFile "toolu_b"
    ∧ (promptForToolApproval "AskUserQuestion" [] "toolu_b"
        (wSingle (answerFile "toolu_a")
          (FileData.parsed (JVal.obj [("answers", JVal.obj [])])))).decision
      = (promptForToolApproval "AskUserQuestion" [] "toolu_b" wEmpty).decision :=
  ⟨distinct_ids_no_interference.1 "toolu_a" "toolu_b" (by decide),
   distinct_ids_no_interference.2 "AskUserQuestion" [] "toolu_b"
     (wSingle (answerFile "toolu_a")
       (FileData.parsed (JVal.obj [("answers", JVal.obj [])])))
     wEmpty (fun _ => rfl)⟩

/-- C9: when the answer file is consumed successfully and the original
input already contains an `answers` field, the mapping read from the file
overrides the original value — the allow decision's updated input keeps
every other field of the original input and sets `answers` to exactly the
file's mapping. -/
theorem merge_overrides_answers_field (input : List (String × JVal))
    (toolUseID : String) (w : World) (t : Nat)
    (fields : List (String × JVal)) (a v₀ : JVal)
    (ht : t < numChecks)
    (hbefore : ∀ s, s < t → (w.fsAt s) (answerFile toolUseID) = none)
    (hfile : (w.fsAt t) (answerFile toolUseID)
      = some (FileData.parsed (JVal.obj fields)))
    (hans : lookupField fields "answers" = some a)
    (hin : lookupField input "answers" = some v₀) :
    (promptForToolApproval "AskUserQuestion" input toolUseID w).decision
        = Decision.allow (setField input "answers" a)
      ∧ lookupField (setField input "answers" a) "answers" = some a
      ∧ ∀ k, k ≠ "answers" →
          lookupField (setField input "answers" a) k = lookupField input k := by
  have h := gate_found_parsed input toolUseID w t (JVal.obj fields) a ht hbefore
    hfile (by simp [getProp, hans])
  exact ⟨by rw [h], lookupField_setField_self input "answers" a,
    fun k hk => lookupField_setField_other input "answers" a k hk⟩

/-- Witness for C9: the original input carries `answers: "old"` and a
`format` field; after consuming a file whose mapping is
`\x7b"q1":"no"\x7d`, the updated input has the file's mapping under `answers`
and the `format` field untouched. -/
theorem merge_overrides_answers_field_check :
    (promptForToolApproval "AskUserQuestion"
        [("answers", JVal.str "old"), ("format", JVal.str "text")] "toolu_w9"
        (wSingle (answerFile "toolu_w9")
          (FileData.parsed
            (JVal.obj [("answers", JVal.obj [("q1", JVal.str "no")])])))).decision
      = Decision.allow [("answers", JVal.obj [("q1", JVal.str "no")]),
          ("format", JVal.str "text")]
    ∧ lookupField (setField
        [("answers", JVal.str "old"), ("format", JVal.str "text")]
        "answers" (JVal.obj [("q1", JVal.str "no")])) "answers"
      = some (JVal.obj [("q1", JVal.str "no")])
    ∧ lookupField (setField
        [("answers", JVal.str "old"), ("format", JVal.str "text")]
        "answers" (JVal.obj [("q1", JVal.str "no")])) "format"
      = lookupField [("answers", JVal.str "old"), ("format", JVal.str "text")]
          "format" :=
  have h := merge_overrides_answers_field
    [("answers", JVal.str "old"), ("format", JVal.str "text")] "toolu_w9"
    (wSingle (answerFile "toolu_w9")
      (FileData.parsed (JVal.obj [("answers", JVal.obj [("q1", JVal.str "no")])])))
    0 [("answers", JVal.obj [("q1", JVal.str "no")])]
    (JVal.obj [("q1", JVal.str "no")]) (JVal.str "old")
    (by rw [numChecks_eq]; omega)
    (fun s hs => absurd hs (Nat.not_lt_zero s))
    rfl rfl rfl
  ⟨h.1, h.2.1, h.2.2 "format" (by decide)⟩

section ProgramLemmas

theorem findSome?_exitOf_emit_append (msgs : List String) (l : List Event) :
    List.findSome? exitOf (msgs.map Event.emitEvent ++ l)
      = List.findSome? exitOf l := by
  induction msgs with
  | nil => rfl
  | cons m rest ih =>
    rw [List.map_cons, List.cons_append, List.findSome?_cons]
    exact ih

/-- Environments used by the closed checks below. -/
def envNoKey : Env := ⟨none, some "build the app", none⟩

def envNoTask : Env := ⟨some "sk-ant-key", none, none⟩

def envGood : Env := ⟨some "sk-ant-key", some "build the app", none⟩

def envBadImages : Env := ⟨some "sk-ant-key", some "build the app", some "not-json"⟩

end ProgramLemmas

/-- C7: configuration errors are fatal with exit status 1 before any
stream event is emitted — with the credential variable unset (and the task
present, no image list) the process prints a diagnostic containing
`ANTHROPIC_API_KEY` and exits 1 with no stream event emitted; with
`TASK_INPUT` unset it prints a diagnostic and exits 1 with no stream event
emitted; and an exit status of 0 occurs only when the stream ran and
completed normally. -/
theorem config_errors_fatal (env : Env) (jsonParse : String → Option JVal)
    (driver : DriverOutcome) :
    (truthy env.anthropicApiKey = false → truthy env.taskInput = true →
      env.taskImages = none →
        exitCode (programAction env jsonParse driver) = 1
        ∧ Event.stderrLine apiKeyDiag ∈ programAction env jsonParse driver
        ∧ containsStr apiKeyDiag "ANTHROPIC_API_KEY" = true
        ∧ (programAction env jsonParse driver).filter isEmit = [])
    ∧ (truthy env.taskInput = false →
        exitCode (programAction env jsonParse driver) = 1
        ∧ Event.stderrLine taskDiag ∈ programAction env jsonParse driver
        ∧ (programAction env jsonParse driver).filter isEmit = [])
    ∧ (exitCode (programAction env jsonParse driver) = 0 →
        driver.isCompletes = true) := by
  refine ⟨?_, ?_, ?_⟩
  · intro h1 h2 h3
    have htrace : programAction env jsonParse driver
        = [Event.mkdirOp ANSWERS_DIR true, Event.stderrLine apiKeyDiag,
           Event.stdoutLine apiKeyHint, Event.exitOp 1] := by
      unfold programAction
      rw [if_neg (by simp [h2]), if_neg (by simp [h3, truthy])]
      unfold runAgent
      rw [if_pos h1]
    rw [htrace]
    exact ⟨rfl, by simp, rfl, rfl⟩
  · intro h1
    have htrace : programAction env jsonParse driver
        = [Event.stderrLine taskDiag, Event.exitOp 1] := by
      unfold programAction
      rw [if_pos h1]
    rw [htrace]
    exact ⟨rfl, by simp, rfl⟩
  · intro h0
    by_cases h1 : truthy env.taskInput = false
    · have htrace : programAction env jsonParse driver
          = [Event.stderrLine taskDiag, Event.exitOp 1] := by
        unfold programAction
        rw [if_pos h1]
      rw [htrace] at h0
      exact absurd h0 (by decide)
    · by_cases h2 : (truthy env.taskImages
          && (jsonParse (env.taskImages.getD "")).isNone) = true
      · have htrace : programAction env jsonParse driver
            = [Event.stderrLine imagesDiag, Event.exitOp 1] := by
          unfold programAction
          rw [if_neg h1, if_pos h2]
        rw [htrace] at h0
        exact absurd h0 (by decide)
      · by_cases h3 : truthy env.anthropicApiKey = false
        · have htrace : programAction env jsonParse driver
              = [Event.mkdirOp ANSWERS_DIR true, Event.stderrLine apiKeyDiag,
                 Event.stdoutLine apiKeyHint, Event.exitOp 1] := by
            unfold programAction
            rw [if_neg h1, if_neg h2]
            unfold runAgent
            rw [if_pos h3]
          rw [htrace] at h0
          exact absurd h0 (by decide)
        · cases driver with
          | completes msgs => rfl
          | fails msgs m =>
            have htrace : programAction env jsonParse (DriverOutcome.fails msgs m)
                = Event.mkdirOp ANSWERS_DIR true :: Event.dispatchOp ::
                    (msgs.map Event.emitEvent
                      ++ [Event.stderrLine ("Error running agent: " ++ m),
                          Event.exitOp 1]) := by
              unfold programAction
              rw [if_neg h1, if_neg h2]
              unfold runAgent
              rw [if_neg h3]
              rfl
            rw [htrace] at h0
            have hstep : exitCode (Event.mkdirOp ANSWERS_DIR true :: Event.dispatchOp ::
                (msgs.map Event.emitEvent
                  ++ [Event.stderrLine ("Error running agent: " ++ m),
                      Event.exitOp 1]))
                = (List.findSome? exitOf
                    (msgs.map Event.emitEvent
                      ++ [Event.stderrLine ("Error running agent: " ++ m),
                          Event.exitOp 1])).getD 0 := rfl
            rw [hstep, findSome?_exitOf_emit_append] at h0
            exact absurd h0 (Nat.succ_ne_zero 0)

/-- Witness for C7 at concrete environments: credential unset, task unset,
and the all-good environment with a normally completing stream. -/
theorem config_errors_fatal_check :
    (exitCode (programAction envNoKey (fun _ => none)
          (DriverOutcome.completes ["evt"])) = 1
      ∧ Event.stderrLine apiKeyDiag
          ∈ programAction envNoKey (fun _ => none) (DriverOutcome.completes ["evt"])
      ∧ containsStr apiKeyDiag "ANTHROPIC_API_KEY" = true
      ∧ (programAction envNoKey (fun _ => none)
          (DriverOutcome.completes ["evt"])).filter isEmit = [])
    ∧ (exitCode (programAction envNoTask (fun _ => none)
          (DriverOutcome.completes ["evt"])) = 1
      ∧ Event.stderrLine taskDiag
          ∈ programAction envNoTask (fun _ => none) (DriverOutcome.completes ["evt"])
      ∧ (programAction envNoTask (fun _ => none)
          (DriverOutcome.completes ["evt"])).filter isEmit = [])
    ∧ DriverOutcome.isCompletes (DriverOutcome.completes ["evt"]) = true :=
  ⟨(config_errors_fatal envNoKey (fun _ => none)
      (DriverOutcome.completes ["evt"])).1 rfl rfl rfl,
   (config_errors_fatal envNoTask (fun _ => none)
      (DriverOutcome.completes ["evt"])).2.1 rfl,
   (config_errors_fatal envGood (fun _ => none)
      (DriverOutcome.completes ["evt"])).2.2 rfl⟩

/-- An environment whose `TASK_IMAGES` is set to the empty string — a set
variable whose contents are not valid JSON (`JSON.parse("")` throws). -/
def envEmptyImages : Env := ⟨some "sk-ant-key", some "build the app", some ""⟩

/-- Counterexample to C8 as stated: with `TASK_IMAGES` set to the empty
string — malformed JSON — the process does not exit 1; the empty string is
falsy, so the `if (taskImagesEnv)` guard skips the parse entirely, the
image list stays empty, and the task is dispatched (exit status 0 when the
stream then completes normally). -/
theorem empty_images_env_dispatches :
    exitCode (programAction envEmptyImages (fun _ => none)
        (DriverOutcome.completes [])) = 0
    ∧ Event.dispatchOp ∈ programAction envEmptyImages (fun _ => none)
        (DriverOutcome.completes []) := by
  have htrace : programAction envEmptyImages (fun _ => none)
      (DriverOutcome.completes [])
      = [Event.mkdirOp ANSWERS_DIR true, Event.dispatchOp] := rfl
  rw [htrace]
  exact ⟨rfl, by simp⟩

/-- C8 as amended: if the image-list environment variable is set to a
nonempty string that is not valid JSON, the process exits with status 1
and the task is never dispatched to the agent service (a set-but-empty
`TASK_IMAGES` is falsy and treated as if absent). -/
theorem malformed_images_no_dispatch (env : Env) (jsonParse : String → Option JVal)
    (driver : DriverOutcome) (s : String)
    (h1 : env.taskImages = some s) (h2 : s ≠ "") (h3 : jsonParse s = none) :
    exitCode (programAction env jsonParse driver) = 1
    ∧ Event.dispatchOp ∉ programAction env jsonParse driver := by
  by_cases h0 : truthy env.taskInput = false
  · have htrace : programAction env jsonParse driver
        = [Event.stderrLine taskDiag, Event.exitOp 1] := by
      unfold programAction
      rw [if_pos h0]
    rw [htrace]
    exact ⟨rfl, by simp⟩
  · have himg : (truthy env.taskImages
        && (jsonParse (env.taskImages.getD "")).isNone) = true := by
      rw [h1]
      simp [truthy, h2, h3]
    have htrace : programAction env jsonParse driver
        = [Event.stderrLine imagesDiag, Event.exitOp 1] := by
      unfold programAction
      rw [if_neg h0, if_pos himg]
    rw [htrace]
    exact ⟨rfl, by simp⟩

/-- Witness for C8 at a concrete environment whose `TASK_IMAGES` is the
invalid JSON text `"not-json"`. -/
theorem malformed_images_no_dispatch_check :
    exitCode (programAction envBadImages (fun _ => none)
        (DriverOutcome.completes ["evt"])) = 1
    ∧ Event.dispatchOp ∉ programAction envBadImages (fun _ => none)
        (DriverOutcome.completes ["evt"]) :=
  malformed_images_no_dispatch envBadImages (fun _ => none)
    (DriverOutcome.completes ["evt"]) "not-json" rfl (by decide) rfl

/-- C10: the scratch directory `/tmp/claude-answers` is created
(recursively) before the credential check, so a run that dies with exit
status 1 for a missing `ANTHROPIC_API_KEY` still performs the
directory-creation side effect first, and that `mkdir` is the only
filesystem-touching step of the fatal path. -/
theorem scratch_dir_created_before_key_check (env : Env)
    (driver : DriverOutcome) (h : truthy env.anthropicApiKey = false) :
    ANSWERS_DIR = "/tmp/claude-answers"
    ∧ (runAgent env driver).1
        = [Event.mkdirOp ANSWERS_DIR true, Event.stderrLine apiKeyDiag,
           Event.stdoutLine apiKeyHint, Event.exitOp 1]
    ∧ (runAgent env driver).1.head? = some (Event.mkdirOp ANSWERS_DIR true)
    ∧ exitCode (runAgent env driver).1 = 1
    ∧ (runAgent env driver).1.filter touchesFs
        = [Event.mkdirOp ANSWERS_DIR true] := by
  have htrace : (runAgent env driver).1
      = [Event.mkdirOp ANSWERS_DIR true, Event.stderrLine apiKeyDiag,
         Event.stdoutLine apiKeyHint, Event.exitOp 1] := by
    unfold runAgent
    rw [if_pos h]
  rw [htrace]
  exact ⟨rfl, rfl, rfl, rfl, rfl⟩

/-- Witness for C10 at a concrete environment with the credential unset. -/
theorem scratch_dir_created_before_key_check_check :
    ANSWERS_DIR = "/tmp/claude-answers"
    ∧ (runAgent envNoKey (DriverOutcome.completes [])).1
        = [Event.mkdirOp ANSWERS_DIR true, Event.stderrLine apiKeyDiag,
           Event.stdoutLine apiKeyHint, Event.exitOp 1]
    ∧ (runAgent envNoKey (DriverOutcome.completes [])).1.head?
        = some (Event.mkdirOp ANSWERS_DIR true)
    ∧ exitCode (runAgent envNoKey (DriverOutcome.completes [])).1 = 1
    ∧ (runAgent envNoKey (DriverOutcome.completes [])).1.filter touchesFs
        = [Event.mkdirOp ANSWERS_DIR true] :=
  scratch_dir_created_before_key_check envNoKey (DriverOutcome.completes []) rfl

end Reeloly
